import Mathlib

/-!
Verification of the effective-state resolver and rule-pause override state
machine of the device-control dashboard (src/src/App.tsx).

Times of day ("HH:MM" strings in the source) are modelled as hour/minute
pairs; `hhmmToMinutes` and string equality on the canonical two-digit form
coincide with the arithmetic and the structural equality used here.
Instants (ISO datetime strings parsed with `new Date`) are modelled as
integers (epoch milliseconds).  Sensor readings (JS numbers) are modelled
as integers: no claim computes with them, they are only moved around.
-/

namespace RootAccess

/-- A clock time of day, the model of an "HH:MM" string. -/
structure HHMM where
  hh : Nat
  mm : Nat
deriving DecidableEq, Repr

/-- Minutes since midnight for "HH:MM" (App.tsx `hhmmToMinutes`, lines 100-103). -/
def hhmmToMinutes (t : HHMM) : Nat :=
  t.hh * 60 + t.mm

/-- Model of `isTimeInRange` (App.tsx lines 106-113).  The source's
`!end || end === ""` guard collapses a null and an empty end time; both are
`none` here.  The null-range branch compares the strings with `===`, which on
canonical "HH:MM" strings is the structural equality of the pairs. -/
def isTimeInRange (now startTime : HHMM) (endTime : Option HHMM) : Bool :=
  match endTime with
  | none => now == startTime
  | some e =>
    let nowM := hhmmToMinutes now
    let startM := hhmmToMinutes startTime
    let endM := hhmmToMinutes e
    if endM > startM then decide (nowM ≥ startM) && decide (nowM < endM)
    else decide (nowM ≥ startM) || decide (nowM < endM)

/-- C1: for `end` non-null with `end > start` (in minutes), `isTimeInRange`
holds iff `start ≤ now < end`; for `end ≤ start` (midnight wrap) it holds iff
`now ≥ start` or `now < end`; for a null `end` it holds iff `now = start`. -/
theorem C1_isTimeInRange_spec (now startTime e : HHMM) :
    (hhmmToMinutes startTime < hhmmToMinutes e →
      (isTimeInRange now startTime (some e) = true ↔
        hhmmToMinutes startTime ≤ hhmmToMinutes now ∧
          hhmmToMinutes now < hhmmToMinutes e))
    ∧ (hhmmToMinutes e ≤ hhmmToMinutes startTime →
      (isTimeInRange now startTime (some e) = true ↔
        hhmmToMinutes now ≥ hhmmToMinutes startTime ∨
          hhmmToMinutes now < hhmmToMinutes e))
    ∧ (isTimeInRange now startTime none = true ↔ now = startTime) := by
  refine ⟨?_, ?_, ?_⟩
  · intro hlt
    simp only [isTimeInRange]
    rw [if_pos hlt]
    simp
  · intro hle
    simp only [isTimeInRange]
    rw [if_neg (by omega)]
    simp
  · simp [isTimeInRange]

/-- A light schedule rule (api/client.ts `LightRule`): `enabled` and `paused`
are optional booleans, `end_time` may be null. -/
structure LightRule where
  enabled : Option Bool
  paused : Option Bool
  start_time : HHMM
  end_time : Option HHMM
  brightness_pct : Nat
deriving DecidableEq, Repr

/-- A pump schedule rule (api/client.ts `PumpRule`). -/
structure PumpRule where
  enabled : Option Bool
  paused : Option Bool
  time : HHMM
  duration_minutes : Nat
deriving DecidableEq, Repr

/-- The tagged union of the two rule variants (api/client.ts `ScheduleRule`). -/
inductive ScheduleRule where
  | light : LightRule → ScheduleRule
  | pump : PumpRule → ScheduleRule
deriving DecidableEq, Repr

/-- One iteration of the loop body of `getEffectiveLightBrightnessFromRules`
(App.tsx lines 119-126): skip non-light rules, rules with `enabled === false`
and rules with a truthy `paused`; on a time match fold the brightness into the
running maximum (`maxBrightness == null ? b : Math.max(maxBrightness, b)`). -/
def lightRuleStep (now : HHMM) (maxBrightness : Option Nat) (r : ScheduleRule) :
    Option Nat :=
  match r with
  | .pump _ => maxBrightness
  | .light lr =>
    if lr.enabled == some false || lr.paused == some true then maxBrightness
    else if isTimeInRange now lr.start_time lr.end_time then
      match maxBrightness with
      | none => some lr.brightness_pct
      | some b => some (max b lr.brightness_pct)
    else maxBrightness

/-- Model of `getEffectiveLightBrightnessFromRules` (App.tsx lines 116-128).
The source reads `now` from the Central-time clock inside the function; it is
a parameter here.  `none` is the source's `null` ("no active rule"). -/
def getEffectiveLightBrightnessFromRules (now : HHMM) (rules : List ScheduleRule) :
    Option Nat :=
  rules.foldl (lightRuleStep now) none

/-- The brightness a rule contributes at `now`: its `brightness_pct` when it is
a light rule, enabled (`enabled ≠ some false`), not paused, and its range
matches `now`; nothing otherwise.  This is the claim's filter, written from the
spec's words. -/
def activeBrightness (now : HHMM) (r : ScheduleRule) : Option Nat :=
  match r with
  | .pump _ => none
  | .light lr =>
    if lr.enabled ≠ some false ∧ lr.paused ≠ some true
        ∧ isTimeInRange now lr.start_time lr.end_time = true then
      some lr.brightness_pct
    else none

/-- The brightness values of all rules active at `now`, in rule order. -/
def activeBrightnesses (now : HHMM) (rules : List ScheduleRule) : List Nat :=
  rules.filterMap (activeBrightness now)

/-- Folding a value into a running `Option`-valued maximum. -/
def maxStep (acc : Option Nat) (b : Nat) : Option Nat :=
  match acc with
  | none => some b
  | some m => some (max m b)

lemma lightRuleStep_eq_maxStep (now : HHMM) (acc : Option Nat) (r : ScheduleRule) :
    lightRuleStep now acc r =
      match activeBrightness now r with
      | none => acc
      | some b => maxStep acc b := by
  cases r with
  | pump pr => rfl
  | light lr =>
    by_cases hskip : lr.enabled == some false || lr.paused == some true
    · have h1 : ¬(lr.enabled ≠ some false ∧ lr.paused ≠ some true
          ∧ isTimeInRange now lr.start_time lr.end_time = true) := by
        simp only [Bool.or_eq_true, beq_iff_eq] at hskip
        tauto
      simp [lightRuleStep, activeBrightness, hskip, h1]
    · simp only [Bool.or_eq_true, beq_iff_eq] at hskip
      push_neg at hskip
      by_cases hrange : isTimeInRange now lr.start_time lr.end_time = true
      · have h1 : lr.enabled ≠ some false ∧ lr.paused ≠ some true
            ∧ isTimeInRange now lr.start_time lr.end_time = true := ⟨hskip.1, hskip.2, hrange⟩
        simp only [lightRuleStep, activeBrightness, if_pos h1]
        rw [if_neg (by simp [hskip.1, hskip.2]), if_pos hrange]
        cases acc <;> rfl
      · have h1 : ¬(lr.enabled ≠ some false ∧ lr.paused ≠ some true
            ∧ isTimeInRange now lr.start_time lr.end_time = true) := by tauto
        simp only [lightRuleStep, activeBrightness, if_neg h1]
        rw [if_neg (by simp [hskip.1, hskip.2]), if_neg hrange]

lemma foldl_lightRuleStep (now : HHMM) (rules : List ScheduleRule) :
    ∀ acc : Option Nat,
      List.foldl (lightRuleStep now) acc rules =
        List.foldl maxStep acc (activeBrightnesses now rules) := by
  induction rules with
  | nil => intro acc; rfl
  | cons r rs ih =>
    intro acc
    rw [List.foldl_cons, lightRuleStep_eq_maxStep]
    cases hr : activeBrightness now r with
    | none =>
      simp only [activeBrightnesses, List.filterMap_cons, hr]
      exact ih acc
    | some b =>
      simp only [activeBrightnesses, List.filterMap_cons, hr, List.foldl_cons]
      exact ih (maxStep acc b)

lemma foldl_maxStep_some (xs : List Nat) : ∀ m : Nat,
    List.foldl maxStep (some m) xs = some (List.foldl max m xs) := by
  induction xs with
  | nil => intro m; rfl
  | cons x xs ih =>
    intro m
    rw [List.foldl_cons, List.foldl_cons]
    exact ih (max m x)

lemma foldl_maxStep_none (xs : List Nat) :
    List.foldl maxStep none xs = xs.max? := by
  cases xs with
  | nil => rfl
  | cons x xs => rw [List.foldl_cons, List.max?]; exact foldl_maxStep_some xs x

/-- C2: the effective light brightness is the maximum `brightness_pct` over the
light rules that are enabled, not paused and whose range matches `now`; with no
such rule the result is `none` ("no active rule"), distinct from a matching 0%
rule which yields `some 0`. -/
theorem C2_effective_brightness_is_max (now : HHMM) (rules : List ScheduleRule) :
    getEffectiveLightBrightnessFromRules now rules = (activeBrightnesses now rules).max?
    ∧ (getEffectiveLightBrightnessFromRules now rules = none ↔
        activeBrightnesses now rules = [])
    ∧ (∀ b : Nat, getEffectiveLightBrightnessFromRules now rules = some b →
        b ∈ activeBrightnesses now rules ∧
          ∀ c ∈ activeBrightnesses now rules, c ≤ b) := by
  have hmax : getEffectiveLightBrightnessFromRules now rules
      = (activeBrightnesses now rules).max? := by
    rw [getEffectiveLightBrightnessFromRules, foldl_lightRuleStep, foldl_maxStep_none]
  refine ⟨hmax, ?_, ?_⟩
  · rw [hmax]
    cases h : activeBrightnesses now rules with
    | nil => simp [List.max?]
    | cons x xs => simp [List.max?]
  · intro b hb
    rw [hmax] at hb
    constructor
    · exact List.max?_mem (fun a b => max_choice a b) hb
    · intro c hc
      exact (List.max?_le_iff (fun _ _ _ => max_le_iff) hb).mp (le_refl b) c hc

/-- C2's theorem at the spec's own example: rules 08:00-10:00 at 40% and
09:00-09:30 at 80%, now 09:15, give effective brightness 80. -/
theorem C2_spec_example :
    getEffectiveLightBrightnessFromRules ⟨9, 15⟩
      [ScheduleRule.light ⟨none, none, ⟨8, 0⟩, some ⟨10, 0⟩, 40⟩,
       ScheduleRule.light ⟨none, none, ⟨9, 0⟩, some ⟨9, 30⟩, 80⟩] = some 80 := by
  have h := (C2_effective_brightness_is_max ⟨9, 15⟩
    [ScheduleRule.light ⟨none, none, ⟨8, 0⟩, some ⟨10, 0⟩, 40⟩,
     ScheduleRule.light ⟨none, none, ⟨9, 0⟩, some ⟨9, 30⟩, 80⟩]).1
  rw [h]
  decide

/-- The remote api calls the override workflows issue (api/client.ts). -/
inductive ApiCall where
  | pauseLightRulesForMinutes : Nat → ApiCall
  | pausePumpRulesForMinutes : Nat → ApiCall
  | setManualPumpOffInMinutes : Nat → ApiCall
  | fetchRules : ApiCall
  | fetchAll : ApiCall
  | lightOn : ApiCall
  | lightOff : ApiCall
  | setPumpSpeed : Nat → ApiCall
  | pumpOn : ApiCall
deriving DecidableEq, Repr

/-- Whether a call throws into the caller's `try` block.  `fetchRules`
(App.tsx lines 550-572) and `fetchAll` (lines 302-331) trap their own errors
and never reject, so only the direct api calls can throw; `ok` is the success
oracle for those. -/
def callThrows (ok : ApiCall → Bool) (c : ApiCall) : Bool :=
  match c with
  | .fetchRules => false
  | .fetchAll => false
  | _ => !(ok c)

/-- Awaiting a list of calls in order inside one `try` block: each call is
performed in turn and the first one that throws aborts the rest (the `catch`
only sets an error message). -/
def runSeq (ok : ApiCall → Bool) : List ApiCall → List ApiCall
  | [] => []
  | c :: cs => if callThrows ok c then [c] else c :: runSeq ok cs

/-- The actuator command of a light override: `action === "on"` gives
`api.lightOn()`, otherwise `api.lightOff()` (App.tsx line 424-425). -/
def lightActionCall (actionOn : Bool) : ApiCall :=
  if actionOn then .lightOn else .lightOff

/-- JS `Math.max(1, Math.min(1440, parseInt(modal.minutes, 10) || 60))`
(App.tsx line 418).  `parsed` models the `parseInt` result, `none` being NaN;
NaN and 0 are falsy, so `|| 60` replaces both with the default 60. -/
def clampedLightMinutes (parsed : Option Int) : Int :=
  max 1 (min 1440 (match parsed with
    | none => 60
    | some n => if n = 0 then 60 else n))

/-- JS `Math.max(1, Math.min(120, parseInt(modal.minutes, 10) || 5))`
(App.tsx line 500), the pump analogue with bound 120 and default 5. -/
def clampedPumpMinutes (parsed : Option Int) : Int :=
  max 1 (min 120 (match parsed with
    | none => 5
    | some n => if n = 0 then 5 else n))

/-- The remote calls `confirmLightOverride` awaits in order (App.tsx
lines 421-426): pause light rules, refetch rules, the actuator command,
refresh readings. -/
def confirmLightOverrideCalls (actionOn : Bool) (minutes : Nat) : List ApiCall :=
  [.pauseLightRulesForMinutes minutes, .fetchRules, lightActionCall actionOn, .fetchAll]

/-- The calls `confirmLightOverride` actually performs under oracle `ok`. -/
def confirmLightOverrideTrace (ok : ApiCall → Bool) (actionOn : Bool) (minutes : Nat) :
    List ApiCall :=
  runSeq ok (confirmLightOverrideCalls actionOn minutes)

/-- The remote calls `confirmPumpManual` awaits in order (App.tsx
lines 502-508): pause pump rules, schedule the remote auto-off, refetch rules,
set full speed, pump on, refresh readings. -/
def confirmPumpManualCalls (minutes : Nat) : List ApiCall :=
  [.pausePumpRulesForMinutes minutes, .setManualPumpOffInMinutes minutes,
   .fetchRules, .setPumpSpeed 100, .pumpOn, .fetchAll]

/-- The calls `confirmPumpManual` actually performs under oracle `ok`. -/
def confirmPumpManualTrace (ok : ApiCall → Bool) (minutes : Nat) : List ApiCall :=
  runSeq ok (confirmPumpManualCalls minutes)

/-- C3: both confirmed overrides issue their remote calls in the order
pause, refetch rules, actuator action, refresh readings (the pump workflow
additionally schedules the remote auto-off for the same duration and sets
speed 100 just before pump-on); and in every execution, if the actuator
command was performed at all then the pause call was awaited first and
succeeded, with the trace beginning exactly pause, (auto-off,) refetch,
(speed,) action. -/
theorem C3_override_call_order (ok : ApiCall → Bool) (actionOn : Bool) (ml mp : Nat) :
    confirmLightOverrideCalls actionOn ml =
      [.pauseLightRulesForMinutes ml, .fetchRules, lightActionCall actionOn, .fetchAll]
    ∧ confirmPumpManualCalls mp =
      [.pausePumpRulesForMinutes mp, .setManualPumpOffInMinutes mp, .fetchRules,
       .setPumpSpeed 100, .pumpOn, .fetchAll]
    ∧ (lightActionCall actionOn ∈ confirmLightOverrideTrace ok actionOn ml →
        ok (.pauseLightRulesForMinutes ml) = true ∧
        (confirmLightOverrideTrace ok actionOn ml).take 3 =
          [.pauseLightRulesForMinutes ml, .fetchRules, lightActionCall actionOn])
    ∧ (ApiCall.pumpOn ∈ confirmPumpManualTrace ok mp →
        ok (.pausePumpRulesForMinutes mp) = true ∧
        (confirmPumpManualTrace ok mp).take 5 =
          [.pausePumpRulesForMinutes mp, .setManualPumpOffInMinutes mp, .fetchRules,
           .setPumpSpeed 100, .pumpOn]) := by
  refine ⟨rfl, rfl, ?_, ?_⟩
  · intro hmem
    have hact : ∀ m, lightActionCall actionOn ≠ ApiCall.pauseLightRulesForMinutes m := by
      intro m; cases actionOn <;> simp [lightActionCall]
    by_cases h1 : ok (.pauseLightRulesForMinutes ml)
    · refine ⟨h1, ?_⟩
      by_cases h3 : ok (lightActionCall actionOn) <;>
        · simp [confirmLightOverrideTrace, confirmLightOverrideCalls, runSeq,
            callThrows, h1, h3] <;> cases actionOn <;>
            simp_all [lightActionCall, callThrows]
    · exfalso
      have : confirmLightOverrideTrace ok actionOn ml = [.pauseLightRulesForMinutes ml] := by
        simp [confirmLightOverrideTrace, confirmLightOverrideCalls, runSeq, callThrows, h1]
      rw [this] at hmem
      simp at hmem
      exact hact ml hmem
  · intro hmem
    by_cases h1 : ok (.pausePumpRulesForMinutes mp)
    · by_cases h2 : ok (.setManualPumpOffInMinutes mp)
      · by_cases h4 : ok (.setPumpSpeed 100)
        · refine ⟨h1, ?_⟩
          by_cases h5 : ok .pumpOn <;>
            simp [confirmPumpManualTrace, confirmPumpManualCalls, runSeq,
              callThrows, h1, h2, h4, h5]
        · exfalso
          have : confirmPumpManualTrace ok mp =
              [.pausePumpRulesForMinutes mp, .setManualPumpOffInMinutes mp,
               .fetchRules, .setPumpSpeed 100] := by
            simp [confirmPumpManualTrace, confirmPumpManualCalls, runSeq,
              callThrows, h1, h2, h4]
          rw [this] at hmem
          simp at hmem
      · exfalso
        have : confirmPumpManualTrace ok mp =
            [.pausePumpRulesForMinutes mp, .setManualPumpOffInMinutes mp] := by
          simp [confirmPumpManualTrace, confirmPumpManualCalls, runSeq, callThrows, h1, h2]
        rw [this] at hmem
        simp at hmem
    · exfalso
      have : confirmPumpManualTrace ok mp = [.pausePumpRulesForMinutes mp] := by
        simp [confirmPumpManualTrace, confirmPumpManualCalls, runSeq, callThrows, h1]
      rw [this] at hmem
      simp at hmem

/-- C3's guarded conjuncts hold at a run where every call succeeds: the traces
begin with pause, then refetch before the actuator command. -/
theorem C3_witness :
    ((fun _ => true) (ApiCall.pauseLightRulesForMinutes 60) = true ∧
      (confirmLightOverrideTrace (fun _ => true) true 60).take 3 =
        [.pauseLightRulesForMinutes 60, .fetchRules, lightActionCall true]) ∧
    ((fun _ => true) (ApiCall.pausePumpRulesForMinutes 5) = true ∧
      (confirmPumpManualTrace (fun _ => true) 5).take 5 =
        [.pausePumpRulesForMinutes 5, .setManualPumpOffInMinutes 5, .fetchRules,
         .setPumpSpeed 100, .pumpOn]) :=
  ⟨(C3_override_call_order (fun _ => true) true 60 5).2.2.1 (by decide),
   (C3_override_call_order (fun _ => true) true 60 5).2.2.2 (by decide)⟩

/-- The two actuator classes the resume modal distinguishes. -/
inductive ActClass where
  | light : ActClass
  | pump : ActClass
deriving DecidableEq, Repr

/-- Model of `isPausedInFuture` (App.tsx lines 84-91): null gives false,
otherwise the parsed instant is compared strictly with the current instant
(`new Date(pausedUntil) > new Date()`).  Instants are epoch milliseconds. -/
def isPausedInFuture (pausedUntil : Option Int) (now : Int) : Bool :=
  match pausedUntil with
  | none => false
  | some t => decide (t > now)

/-- The observable effects of the resume gate: the two resume endpoints, the
rule refetch, the deferred or immediate manual action (identified by a number),
and a surfaced error message. -/
inductive GateEvent where
  | callResumeLightRules : GateEvent
  | callResumePumpRules : GateEvent
  | callFetchRules : GateEvent
  | execAction : Nat → GateEvent
  | surfaceError : GateEvent
deriving DecidableEq, Repr

/-- The dashboard state the resume gate touches: the single shared
`pendingResumeActionRef` cell (App.tsx line 215) and the `resumeModal` state
(line 210-214; `pausedUntil` there is the displayed instant, `?? ""` in the
source mapped to `none`). -/
structure GateState where
  pendingAction : Option Nat
  resumeOpen : Bool
  resumeType : ActClass
  resumePausedUntil : Option Int
deriving DecidableEq, Repr

/-- The resume endpoint used for an actuator class (App.tsx lines 460-461). -/
def resumeCallOf (cls : ActClass) : GateEvent :=
  match cls with
  | .light => .callResumeLightRules
  | .pump => .callResumePumpRules

/-- Model of `runOrShowResumeLight` / `runOrShowResumePump` (App.tsx
lines 434-449): when the class's pause instant is in the future, open the
resume modal for that class and capture the action in the shared pending
cell without running it; otherwise run the action immediately. -/
def runOrShowResume (cls : ActClass) (pausedUntil : Option Int) (now : Int)
    (action : Nat) (st : GateState) : GateState × List GateEvent :=
  if isPausedInFuture pausedUntil now then
    ({ pendingAction := some action, resumeOpen := true, resumeType := cls,
       resumePausedUntil := pausedUntil }, [])
  else (st, [.execAction action])

/-- `runOrShowResumeLight` (App.tsx lines 434-441), reading the light pause field. -/
def runOrShowResumeLight (lightPausedUntil : Option Int) (now : Int) (action : Nat)
    (st : GateState) : GateState × List GateEvent :=
  runOrShowResume .light lightPausedUntil now action st

/-- `runOrShowResumePump` (App.tsx lines 442-449), reading the pump pause field. -/
def runOrShowResumePump (pumpPausedUntil : Option Int) (now : Int) (action : Nat)
    (st : GateState) : GateState × List GateEvent :=
  runOrShowResume .pump pumpPausedUntil now action st

/-- Model of `confirmResumeModal` (App.tsx lines 450-469).  The modal closes
first; on the resume path the class's resume endpoint is awaited (`resumeOk`
says whether it succeeds) — on failure the error is surfaced and the function
returns before `runPending`; `fetchRules` traps its own errors and never
throws.  `runPending` empties the pending cell and runs the action it held. -/
def confirmResumeModal (resume : Bool) (resumeOk : Bool) (st : GateState) :
    GateState × List GateEvent :=
  let closed : GateState := { st with resumeOpen := false }
  if resume then
    if resumeOk then
      match closed.pendingAction with
      | some a => ({ closed with pendingAction := none },
          [resumeCallOf st.resumeType, .callFetchRules, .execAction a])
      | none => ({ closed with pendingAction := none },
          [resumeCallOf st.resumeType, .callFetchRules])
    else (closed, [resumeCallOf st.resumeType, .surfaceError])
  else
    match closed.pendingAction with
    | some a => ({ closed with pendingAction := none }, [.execAction a])
    | none => ({ closed with pendingAction := none }, [])

/-- Model of `closeResumeModal` (App.tsx lines 470-473): close the dialog and
drop the pending action; nothing is called and nothing runs. -/
def closeResumeModal (st : GateState) : GateState × List GateEvent :=
  ({ st with resumeOpen := false, pendingAction := none }, [])

/-- C4: with a pending action held, keep-paused runs it without any resume
call; resume calls the class's resume endpoint, refetches rules and only then
runs the pending action; a failed resume surfaces the error and does not run
the pending action; dismissing the dialog runs neither the action nor resume. -/
theorem C4_resume_gate_resolutions (st : GateState) (a : Nat)
    (h : st.pendingAction = some a) :
    confirmResumeModal false true st =
      ({ st with resumeOpen := false, pendingAction := none }, [.execAction a])
    ∧ confirmResumeModal false false st =
      ({ st with resumeOpen := false, pendingAction := none }, [.execAction a])
    ∧ confirmResumeModal true true st =
      ({ st with resumeOpen := false, pendingAction := none },
        [resumeCallOf st.resumeType, .callFetchRules, .execAction a])
    ∧ confirmResumeModal true false st =
      ({ st with resumeOpen := false },
        [resumeCallOf st.resumeType, .surfaceError])
    ∧ closeResumeModal st =
      ({ st with resumeOpen := false, pendingAction := none }, []) := by
  refine ⟨?_, ?_, ?_, ?_, rfl⟩ <;> simp [confirmResumeModal, h]

/-- C4's theorem at a concrete state holding pending action 7. -/
theorem C4_witness :
    confirmResumeModal false true ⟨some 7, true, ActClass.light, some 1000⟩ =
      (⟨none, false, ActClass.light, some 1000⟩, [GateEvent.execAction 7])
    ∧ confirmResumeModal true false ⟨some 7, true, ActClass.light, some 1000⟩ =
      (⟨some 7, false, ActClass.light, some 1000⟩,
        [GateEvent.callResumeLightRules, GateEvent.surfaceError]) :=
  ⟨(C4_resume_gate_resolutions ⟨some 7, true, ActClass.light, some 1000⟩ 7 rfl).1,
   (C4_resume_gate_resolutions ⟨some 7, true, ActClass.light, some 1000⟩ 7 rfl).2.2.2.1⟩

/-- C5: for every gating decision, a `paused_until` strictly in the past gates
exactly like an absent one: the state and the emitted events coincide, and in
both cases the action runs immediately with nothing else changed. -/
theorem C5_past_pause_is_no_pause (t now : Int) (a : Nat) (st : GateState)
    (hpast : t < now) :
    runOrShowResumeLight (some t) now a st = runOrShowResumeLight none now a st
    ∧ runOrShowResumePump (some t) now a st = runOrShowResumePump none now a st
    ∧ runOrShowResumeLight none now a st = (st, [.execAction a])
    ∧ runOrShowResumePump none now a st = (st, [.execAction a]) := by
  have hf : isPausedInFuture (some t) now = false := by
    simp [isPausedInFuture]; omega
  refine ⟨?_, ?_, rfl, rfl⟩ <;>
    simp [runOrShowResumeLight, runOrShowResumePump, runOrShowResume, hf,
      isPausedInFuture] <;> omega

/-- C5's theorem with pause instant 100 already past at instant 200. -/
theorem C5_witness :
    runOrShowResumeLight (some 100) 200 3 ⟨none, false, ActClass.light, none⟩ =
      runOrShowResumeLight none 200 3 ⟨none, false, ActClass.light, none⟩
    ∧ runOrShowResumeLight none 200 3 ⟨none, false, ActClass.light, none⟩ =
      (⟨none, false, ActClass.light, none⟩, [GateEvent.execAction 3]) :=
  ⟨(C5_past_pause_is_no_pause 100 200 3 ⟨none, false, ActClass.light, none⟩ (by decide)).1,
   (C5_past_pause_is_no_pause 100 200 3 ⟨none, false, ActClass.light, none⟩ (by decide)).2.2.1⟩

/-- C10: the pending cell is one shared ref for both actuator classes: a
manual action gated while its class's pause is in the future captures itself
as the sole pending action, overwriting whatever was pending before —
whichever class captured it — and the previous pending action is not run. -/
theorem C10_single_pending_cell (st : GateState) (a1 a2 : Nat) (t now : Int)
    (hprev : st.pendingAction = some a1) (hfut : now < t) :
    (runOrShowResumeLight (some t) now a2 st).1.pendingAction = some a2
    ∧ (runOrShowResumeLight (some t) now a2 st).2 = []
    ∧ (runOrShowResumePump (some t) now a2 st).1.pendingAction = some a2
    ∧ (runOrShowResumePump (some t) now a2 st).2 = []
    ∧ (runOrShowResumeLight (some t) now a2 st).1 =
        { pendingAction := some a2, resumeOpen := true, resumeType := .light,
          resumePausedUntil := some t }
    ∧ (runOrShowResumePump (some t) now a2 st).1 =
        { pendingAction := some a2, resumeOpen := true, resumeType := .pump,
          resumePausedUntil := some t } := by
  have hf : isPausedInFuture (some t) now = true := by
    simp [isPausedInFuture]; omega
  refine ⟨?_, ?_, ?_, ?_, ?_, ?_⟩ <;>
    simp [runOrShowResumeLight, runOrShowResumePump, runOrShowResume, hf]

/-- C10's theorem where a pump-captured pending action 1 is overwritten by a
light action 2 under a future pause. -/
theorem C10_witness :
    (runOrShowResumeLight (some 500) 200 2 ⟨some 1, false, ActClass.pump, some 500⟩).1.pendingAction
      = some 2
    ∧ (runOrShowResumeLight (some 500) 200 2 ⟨some 1, false, ActClass.pump, some 500⟩).2 = [] :=
  ⟨(C10_single_pending_cell ⟨some 1, false, ActClass.pump, some 500⟩ 1 2 500 200 rfl (by decide)).1,
   (C10_single_pending_cell ⟨some 1, false, ActClass.pump, some 500⟩ 1 2 500 200 rfl (by decide)).2.1⟩

/-- Model of the polling effect's interval choice (App.tsx lines 580-590):
5000 ms while either pause field is a future instant, 30000 ms otherwise. -/
def pollIntervalMs (lightPausedUntil pumpPausedUntil : Option Int) (now : Int) : Nat :=
  if isPausedInFuture lightPausedUntil now || isPausedInFuture pumpPausedUntil now
  then 5000 else 30000

/-- C6: the reconciliation interval is the short 5-second one exactly when at
least one of the two pause fields is an instant in the future, and the base
30-second one exactly when both are absent or not in the future. -/
theorem C6_polling_interval (l p : Option Int) (now : Int) :
    (pollIntervalMs l p now = 5000 ↔
      (∃ t, l = some t ∧ now < t) ∨ (∃ t, p = some t ∧ now < t))
    ∧ (pollIntervalMs l p now = 30000 ↔
      ¬((∃ t, l = some t ∧ now < t) ∨ (∃ t, p = some t ∧ now < t))) := by
  have hiff : ∀ x : Option Int, isPausedInFuture x now = true ↔ ∃ t, x = some t ∧ now < t := by
    intro x
    cases x with
    | none => simp [isPausedInFuture]
    | some t => simp [isPausedInFuture]
  have hcond : (isPausedInFuture l now || isPausedInFuture p now) = true ↔
      ((∃ t, l = some t ∧ now < t) ∨ (∃ t, p = some t ∧ now < t)) := by
    simp only [Bool.or_eq_true, hiff]
  by_cases h : (isPausedInFuture l now || isPausedInFuture p now) = true
  · rw [pollIntervalMs, if_pos h]
    simp [hcond.mp h]
  · rw [pollIntervalMs, if_neg h]
    have hnot : ¬((∃ t, l = some t ∧ now < t) ∨ (∃ t, p = some t ∧ now < t)) :=
      fun hx => h (hcond.mpr hx)
    simp [hnot]

/-- Whether `pat` occurs as a contiguous run inside `l`: the model of JS
`String.prototype.includes` on the characters of the strings. -/
def listContainsSeq (l pat : List Char) : Bool :=
  match l with
  | [] => pat.isEmpty
  | _ :: rest => pat.isPrefixOf l || listContainsSeq rest pat

/-- The message `fetchRules` surfaces on failure (App.tsx lines 562-568):
network-like errors get the reach-the-device hint, an empty message the
generic one, anything else passes through. -/
def rulesErrorMessage (msg : String) : String :=
  let isNetwork := msg == "Failed to fetch"
    || listContainsSeq msg.data "NetworkError".data
    || listContainsSeq msg.data "load failed".data
  if isNetwork then
    "Couldn’t reach the device. Make sure you’re on the same network as the Pi and it’s running the latest code."
  else if msg == "" then "Couldn’t load rules." else msg

/-- The payload of a successful `GET /schedule/rules` (api/client.ts
`getRules`): the rule list and the two server-side pause instants. -/
structure RulesFetchResponse where
  rules : List ScheduleRule
  light_rules_paused_until : Option Int
  pump_rules_paused_until : Option Int
deriving Repr

/-- The dashboard state `fetchRules` writes: the rule cache, the two pause
fields, the rules error and the loading flag. -/
structure RulesState where
  rules : List ScheduleRule
  lightRulesPausedUntil : Option Int
  pumpRulesPausedUntil : Option Int
  rulesError : Option String
  rulesLoading : Bool
deriving Repr

/-- Model of `fetchRules` (App.tsx lines 550-572).  `response` is `none` when
`api.getRules()` rejects, `errMsg` the rejection's message (`""` when the
thrown value is not an `Error`).  On success every field is replaced by the
payload (`?? []` / `?? null` are the identity under the `Option` model); on
failure the rules are reset to `[]`, both pause fields to null, and an error
message is set; `finally` clears the loading flag either way. -/
def fetchRules (response : Option RulesFetchResponse) (errMsg : String)
    (st : RulesState) : RulesState :=
  match response with
  | some res =>
    { rules := res.rules,
      lightRulesPausedUntil := res.light_rules_paused_until,
      pumpRulesPausedUntil := res.pump_rules_paused_until,
      rulesError := none,
      rulesLoading := false }
  | none =>
    { rules := [],
      lightRulesPausedUntil := none,
      pumpRulesPausedUntil := none,
      rulesError := some (rulesErrorMessage errMsg),
      rulesLoading := false }

/-- C7: a failed rule fetch always resets the visible rule list to empty, sets
both pause fields to null and surfaces an error message, independently of
whatever rules or pause fields were cached before (the result is the same for
any two prior states). -/
theorem C7_failed_fetch_resets (st st' : RulesState) (errMsg : String) :
    (fetchRules none errMsg st).rules = []
    ∧ (fetchRules none errMsg st).lightRulesPausedUntil = none
    ∧ (fetchRules none errMsg st).pumpRulesPausedUntil = none
    ∧ (fetchRules none errMsg st).rulesError = some (rulesErrorMessage errMsg)
    ∧ (fetchRules none errMsg st).rulesError ≠ none
    ∧ fetchRules none errMsg st = fetchRules none errMsg st' := by
  refine ⟨rfl, rfl, rfl, rfl, ?_, rfl⟩
  simp [fetchRules]

/-- Pump statistics as reported by `api.getPumpStats()`. -/
structure PumpStats where
  speed : Option Int
  power : Option Int
deriving DecidableEq, Repr

/-- The sensor snapshot held by the dashboard (App.tsx `SensorState`,
lines 130-138). -/
structure SensorState where
  distance : Option Int
  humidity : Option Int
  temperature : Option Int
  pcbTemp : Option Int
  lightBrightness : Option Int
  pumpSpeed : Option Int
  pumpStats : Option PumpStats
deriving DecidableEq, Repr

/-- The outcome of the seven parallel sensor requests of `fetchAll`: each is
`none` when the request failed (each call carries `.catch(() => null)`). -/
structure SensorFetchResults where
  distance : Option Int
  humidity : Option Int
  temperature : Option Int
  pcbTemp : Option Int
  lightBrightness : Option Int
  pumpSpeed : Option Int
  pumpStats : Option PumpStats
deriving DecidableEq, Repr

/-- Model of `fetchAll` (App.tsx lines 302-331): the whole sensor snapshot is
replaced by the fetched values (failed reads having resolved to null), and the
brightness slider is updated only when the brightness read came back non-null.
Returns the new snapshot and the new slider value. -/
def fetchAll (r : SensorFetchResults) (st : SensorState) (slider : Int) :
    SensorState × Int :=
  ({ distance := r.distance,
     humidity := r.humidity,
     temperature := r.temperature,
     pcbTemp := r.pcbTemp,
     lightBrightness := r.lightBrightness,
     pumpSpeed := r.pumpSpeed,
     pumpStats := r.pumpStats },
   match r.lightBrightness with
   | some v => v
   | none => slider)

/-- C8 is false on the code: with every sensor request failing, a previously
displayed distance of 5 is replaced by null instead of being kept. -/
theorem C8_counterexample :
    (fetchAll ⟨none, none, none, none, none, none, none⟩
        ⟨some 5, some 40, some 21, some 30, some 80, some 0, none⟩ 80).1.distance = none
    ∧ (⟨some 5, some 40, some 21, some 30, some 80, some 0, none⟩ :
        SensorState).distance = some 5 := by
  constructor <;> rfl

/-- C8 amended: a refresh replaces every sensor field with the fetched value,
so a failed read leaves that field null rather than keeping the last-known
value; only the brightness slider keeps its previous value when the
brightness read fails. -/
theorem C8_refresh_replaces_sensors (r : SensorFetchResults) (st : SensorState)
    (slider : Int) :
    (fetchAll r st slider).1 =
      { distance := r.distance, humidity := r.humidity, temperature := r.temperature,
        pcbTemp := r.pcbTemp, lightBrightness := r.lightBrightness,
        pumpSpeed := r.pumpSpeed, pumpStats := r.pumpStats }
    ∧ (r.lightBrightness = none → (fetchAll r st slider).2 = slider)
    ∧ (∀ v, r.lightBrightness = some v → (fetchAll r st slider).2 = v) := by
  refine ⟨rfl, ?_, ?_⟩
  · intro h
    simp [fetchAll, h]
  · intro v h
    simp [fetchAll, h]

/-- C8's amended theorem at the counterexample's input: all reads failed and
the slider keeps its value 80. -/
theorem C8_refresh_witness :
    (fetchAll ⟨none, none, none, none, none, none, none⟩
        ⟨some 5, some 40, some 21, some 30, some 80, some 0, none⟩ 80).2 = 80 :=
  (C8_refresh_replaces_sensors ⟨none, none, none, none, none, none, none⟩
    ⟨some 5, some 40, some 21, some 30, some 80, some 0, none⟩ 80).2.1 rfl

/-- C9 is false on the code: the out-of-range light duration input "2000"
(`parseInt` gives 2000) is clamped to 1440, it does not fall back to the
default 60; likewise pump input "999" is clamped to 120, not 5. -/
theorem C9_counterexample :
    clampedLightMinutes (some 2000) = 1440 ∧ (1440 : Int) ≠ 60
    ∧ clampedPumpMinutes (some 999) = 120 ∧ (120 : Int) ≠ 5 := by
  refine ⟨rfl, by decide, rfl, by decide⟩

/-- C9 amended: the duration used is `max 1 (min bound n)` for a parsed
integer `n ≠ 0` (bound 1440 for light, 120 for pump), hence always within
`[1, 1440]` resp. `[1, 120]`; non-numeric input (`parseInt` NaN) and input
parsing to 0 fall back to the fixed defaults 60 resp. 5; the action is never
rejected. -/
theorem C9_duration_clamped (parsed : Option Int) :
    (1 ≤ clampedLightMinutes parsed ∧ clampedLightMinutes parsed ≤ 1440
      ∧ 1 ≤ clampedPumpMinutes parsed ∧ clampedPumpMinutes parsed ≤ 120)
    ∧ (parsed = none →
        clampedLightMinutes parsed = 60 ∧ clampedPumpMinutes parsed = 5)
    ∧ (parsed = some 0 →
        clampedLightMinutes parsed = 60 ∧ clampedPumpMinutes parsed = 5)
    ∧ (∀ n : Int, parsed = some n → n ≠ 0 →
        clampedLightMinutes parsed = max 1 (min 1440 n)
        ∧ clampedPumpMinutes parsed = max 1 (min 120 n)) := by
  refine ⟨?_, ?_, ?_, ?_⟩
  · cases parsed with
    | none => simp [clampedLightMinutes, clampedPumpMinutes]
    | some n =>
      by_cases h : n = 0 <;>
        simp [clampedLightMinutes, clampedPumpMinutes, h] <;> omega
  · intro h
    subst h
    exact ⟨rfl, rfl⟩
  · intro h
    subst h
    exact ⟨rfl, rfl⟩
  · intro n h hn
    subst h
    simp [clampedLightMinutes, clampedPumpMinutes, hn]

/-- C9's amended theorem at concrete inputs: NaN gives the defaults, and a
parsed 75 is used as-is for light and clamped to 75 for pump. -/
theorem C9_duration_witness :
    clampedLightMinutes none = 60 ∧ clampedPumpMinutes none = 5
    ∧ clampedLightMinutes (some 75) = max 1 (min 1440 75) :=
  ⟨((C9_duration_clamped none).2.1 rfl).1,
   ((C9_duration_clamped none).2.1 rfl).2,
   ((C9_duration_clamped (some 75)).2.2.2 75 rfl (by decide)).1⟩

end RootAccess
